import Mathlib

/-!
Verification of the tracker orbital-tracking engine against its specification.

The development shallowly embeds the parts of the source that the claims
concern:

* `src/widgets/satellite_groups.rs` — the satellite-group cache & fetch
  pipeline (`load_entry`, `cancel_entry_loading`, `reload_selected_entries`,
  `poll_entry_updates`, the mouse select/deselect handler and the periodic
  `handle_update_event`).  Background tokio tasks are modelled by an explicit
  `inFlight` list of spawned task ids; the mpsc channel by a `channel` list;
  task completion and abort are transitions on this state.
* `src/group.rs` — `Group::get_elements` cache-staleness decision.
* `src/object.rs` — `Object::from_elements` (the sgp4 crate is external and
  is passed in as an oracle; `unwrap` on its failure is modelled by a
  distinguished `panicked` outcome).
* `src/utils.rs` — `calculate_pass_times` (time in integer seconds, the
  1-minute step is 60), `calculate_ground_track`, `wrap_longitude_rad`,
  `subsolar_point`, and `src/coordinates/lla.rs` `Lla::az_el` /
  `lla_to_ecef` (f64 arithmetic idealized over the reals; the NaN sentinel
  is modelled as `none`).
-/

namespace Tracker

open Real

/-! ## Satellite-group pipeline (src/widgets/satellite_groups.rs) -/

/-- One roster row: `Entry { group, selected, loading, abort_handle }`.
The `group` payload is irrelevant to the claims and omitted; the abort
handle stores the id of the spawned tokio task. -/
structure Entry where
  selected : Bool
  loading : Bool
  abortHandle : Option Nat
deriving DecidableEq, Repr

def defaultEntry : Entry :=
  { selected := false, loading := false, abortHandle := none }

/-- A message on the mpsc channel: `UpdateResult { index, elements }`.
Element sets are abstracted to numeric ids. -/
structure UpdateResult where
  index : Nat
  elements : Option (List Nat)
deriving DecidableEq, Repr

/-- The observable state of `SatelliteGroupsState` together with the
environment needed to model its background tasks: `inFlight` lists the
spawned, not-yet-finished, not-aborted fetch tasks as (task id, entry index);
`channel` is the mpsc queue of delivered-but-unpolled results. -/
structure PipelineState where
  objects : List Nat
  listEntries : List Entry
  inFlight : List (Nat × Nat)
  channel : List UpdateResult
  nextTaskId : Nat
deriving DecidableEq, Repr

/-- Startup state: entries built from configuration, nothing selected. -/
def initState (n : Nat) : PipelineState :=
  { objects := []
    listEntries := List.replicate n defaultEntry
    inFlight := []
    channel := []
    nextTaskId := 0 }

/-- `SatelliteGroupsState::load_entry`: sets `loading`, spawns a fetch task
and stores its abort handle.  Note that it does not abort any previously
stored handle: the old handle is overwritten and the old task keeps
running. -/
def loadEntry (s : PipelineState) (index : Nat) : PipelineState :=
  let entry := s.listEntries.getD index defaultEntry
  { s with
    listEntries := s.listEntries.set index
      { entry with loading := true, abortHandle := some s.nextTaskId }
    inFlight := s.inFlight ++ [(s.nextTaskId, index)]
    nextTaskId := s.nextTaskId + 1 }

/-- `SatelliteGroupsState::cancel_entry_loading`: takes the stored handle,
aborts it (the task is removed from the in-flight pool if it has not yet
finished; an already-finished task is unaffected) and clears `loading`. -/
def cancelEntryLoading (s : PipelineState) (index : Nat) : PipelineState :=
  let entry := s.listEntries.getD index defaultEntry
  let afterAbort :=
    match entry.abortHandle with
    | some task => { s with inFlight := s.inFlight.filter (fun p => p.1 != task) }
    | none => s
  { afterAbort with
    listEntries := afterAbort.listEntries.set index
      { entry with abortHandle := none, loading := false } }

/-- `SatelliteGroupsState::reload_selected_entries`: clears the roster and
calls `load_entry` on every currently selected entry. -/
def reloadSelectedEntries (s : PipelineState) : PipelineState :=
  (List.range s.listEntries.length).foldl
    (fun acc index =>
      if (acc.listEntries.getD index defaultEntry).selected then loadEntry acc index
      else acc)
    { s with objects := [] }

/-- Body of the `while let Ok(result) = try_recv()` loop of
`poll_entry_updates`: on a successful result the elements are appended to
the roster; on a failed one the entry is forced unselected. -/
def pollStep (acc : PipelineState) (result : UpdateResult) : PipelineState :=
  let entry := acc.listEntries.getD result.index defaultEntry
  match result.elements with
  | some elems =>
    { acc with
      listEntries := acc.listEntries.set result.index
        { entry with loading := false, abortHandle := none }
      objects := acc.objects ++ elems }
  | none =>
    { acc with
      listEntries := acc.listEntries.set result.index
        { entry with loading := false, abortHandle := none, selected := false } }

/-- `SatelliteGroupsState::poll_entry_updates`: drains the channel. -/
def pollEntryUpdates (s : PipelineState) : PipelineState :=
  s.channel.foldl pollStep { s with channel := [] }

/-- Environment transition: an in-flight fetch task finishes
(`group.get_elements` returned, `tx.send` delivered the result) and leaves
the in-flight pool.  A task that is not in flight (already finished or
aborted) does nothing. -/
def completeTask (s : PipelineState) (task : Nat) (elements : Option (List Nat)) :
    PipelineState :=
  match s.inFlight.find? (fun p => p.1 == task) with
  | some found =>
    { s with
      inFlight := s.inFlight.filter (fun p => p.1 != task)
      channel := s.channel ++ [{ index := found.2, elements := elements }] }
  | none => s

/-- The `MouseEventKind::Down` branch of `handle_mouse_event`: toggles the
clicked entry; deselecting cancels a loading task and rebuilds the roster,
selecting starts a load. -/
def toggleSelect (s : PipelineState) (index : Nat) : PipelineState :=
  let wasSelected := (s.listEntries.getD index defaultEntry).selected
  let s1 :=
    { s with
      listEntries := s.listEntries.set index
        { s.listEntries.getD index defaultEntry with selected := !wasSelected } }
  if wasSelected then reloadSelectedEntries (cancelEntryLoading s1 index)
  else loadEntry s1 index

/-- `handle_update_event`: polls results, then — when the cache lifetime has
elapsed since the last refresh (`refreshDue`) — reloads all selected
entries. -/
def handleUpdateEvent (refreshDue : Bool) (s : PipelineState) : PipelineState :=
  let s1 := pollEntryUpdates s
  if refreshDue then reloadSelectedEntries s1 else s1

/-- Number of in-flight fetch tasks for the entry at `index`. -/
def inFlightCount (s : PipelineState) (index : Nat) : Nat :=
  (s.inFlight.filter (fun p => p.2 == index)).length

/-- States of the pipeline reachable from startup under its own operations
(user clicks, periodic update events and background task completions). -/
inductive Reachable : PipelineState → Prop
  | init (n : Nat) : Reachable (initState n)
  | toggle {s : PipelineState} (index : Nat) : Reachable s → Reachable (toggleSelect s index)
  | update {s : PipelineState} (refreshDue : Bool) :
      Reachable s → Reachable (handleUpdateEvent refreshDue s)
  | complete {s : PipelineState} (task : Nat) (elements : Option (List Nat)) :
      Reachable s → Reachable (completeTask s task elements)

/-- Select entry 0, then let the periodic refresh fire while its fetch task
is still in flight. -/
def refreshRaceState : PipelineState :=
  handleUpdateEvent true (toggleSelect (initState 1) 0)

/-- Select entry 0, let its fetch task finish and deliver a successful
result, deselect the entry (the abort hits an already-finished task), then
poll. -/
def lateResultState : PipelineState :=
  handleUpdateEvent false
    (toggleSelect (completeTask (toggleSelect (initState 1) 0) 0 (some [5])) 0)

/-! ## Cache staleness (src/group.rs, `Group::get_elements`) -/

/-- What `get_elements` observes of the on-disk cache for one group: whether
the cache file exists, the elapsed seconds since its modification time, and
its content. -/
structure CacheView where
  cacheExists : Bool
  ageSecs : Nat
  content : List Nat
deriving DecidableEq, Repr

/-- `Group::get_elements` with the network fetch supplied as an oracle
(`fetchResult`; `none` models a failed fetch).  Returns the element list (or
`none` on an unrecoverable miss) together with the number of network fetch
attempts made.  If the cache file is missing, a fetch is attempted and its
result written (a fresh write has age 0); then the file's age is compared
against the cache lifetime with `age > cache_lifetime`, a fetch is attempted
on expiry, and the (possibly rewritten) file is read back. -/
def getElements (cache : CacheView) (lifetimeSecs : Nat) (fetchResult : Option (List Nat)) :
    Option (List Nat) × Nat :=
  if cache.cacheExists = false then
    match fetchResult with
    | none => (none, 1)
    | some fetched =>
      let freshAge : Nat := 0
      if lifetimeSecs < freshAge then
        match fetchResult with
        | some refetched => (some refetched, 2)
        | none => (some fetched, 2)
      else (some fetched, 1)
  else
    if lifetimeSecs < cache.ageSecs then
      match fetchResult with
      | some refetched => (some refetched, 1)
      | none => (some cache.content, 1)
    else (some cache.content, 0)

/-! ## Object construction (src/object.rs, `Object::from_elements`) -/

/-- Errors of the external sgp4 propagation crate. -/
inductive SgpError
  | invalidElements
  | propagationError
deriving DecidableEq, Repr

/-- The derived propagation constants (contents irrelevant to the claims). -/
structure SgpConstants where
  tag : Nat
deriving DecidableEq, Repr

/-- The fields of `sgp4::Elements` the embedded code reads. -/
structure Elements where
  datetime : Int
  meanMotion : Rat
deriving DecidableEq, Repr

/-- Result of running a Rust function that may `panic`: `panicked` models a
process abort (an `unwrap` on an error). -/
inductive RunResult (α : Type)
  | ok (val : α)
  | panicked
deriving DecidableEq, Repr

/-- A constructed `Object`. -/
structure Object where
  epoch : Int
  orbitalPeriodSecs : Int
  elements : Elements
  constants : SgpConstants
deriving DecidableEq, Repr

/-- Rust `as i64` on a non-negative f64 value truncates toward zero. -/
def truncToInt (q : Rat) : Int :=
  if 0 ≤ q then q.floor else q.ceil

/-- `Object::from_elements`: computes the orbital period as
`(86400 / mean_motion) as i64` seconds and derives the propagation constants
via `sgp4::Constants::from_elements(&elements).unwrap()` — the external
derivation is the oracle `constantsFromElements`, and the `unwrap` turns its
error into a panic. -/
def fromElements (constantsFromElements : Elements → Except SgpError SgpConstants)
    (elements : Elements) : RunResult Object :=
  let orbitalPeriodSecs := truncToInt (86400 / elements.meanMotion)
  match constantsFromElements elements with
  | Except.ok c =>
    RunResult.ok
      { epoch := elements.datetime
        orbitalPeriodSecs := orbitalPeriodSecs
        elements := elements
        constants := c }
  | Except.error _ => RunResult.panicked

/-- An external constants derivation that rejects every element set (a
decayed/degenerate orbit). -/
def invalidOracle : Elements → Except SgpError SgpConstants :=
  fun _ => Except.error SgpError.invalidElements

/-- A concrete element set (epoch 0, mean motion 16 rev/day). -/
def decayedElements : Elements :=
  { datetime := 0, meanMotion := 16 }

/-! ## Ground track (src/utils.rs, `calculate_ground_track`) -/

/-- The geodetic part of a propagated `State` (longitude, latitude,
altitude), over the rationals. -/
structure ObjState where
  lon : Rat
  lat : Rat
  alt : Rat
deriving DecidableEq, Repr

/-- An `Object` as `calculate_ground_track` consumes it: its orbital period
in whole minutes (`orbital_period().num_minutes()`) and its `predict`
operation, with time in whole minutes and `none` for a propagation error. -/
structure TrackedObject where
  periodMinutes : Int
  predict : Int → Option ObjState

/-- A Rust loop that `unwrap`s each fallible element: the first `none`
aborts the whole computation. -/
def mapUnwrap {α β : Type} (f : α → Option β) : List α → RunResult (List β)
  | [] => RunResult.ok []
  | x :: xs =>
    match f x with
    | none => RunResult.panicked
    | some b =>
      match mapUnwrap f xs with
      | RunResult.ok bs => RunResult.ok (b :: bs)
      | RunResult.panicked => RunResult.panicked

/-- `calculate_ground_track`: for `duration` in `1..orbital_period_minutes`,
push `(state.longitude(), state.latitude())` of
`object.predict(time + duration).unwrap()`. -/
def calculateGroundTrack (object : TrackedObject) (time : Int) :
    RunResult (List (Rat × Rat)) :=
  mapUnwrap
    (fun k : Nat => (object.predict (time + (k : Int))).map (fun st => (st.lon, st.lat)))
    (List.range' 1 (object.periodMinutes - 1).toNat)

/-- Sample object for evaluating the theorems: a 3-minute period and a
total propagation function. -/
def sampleObject : TrackedObject :=
  { periodMinutes := 3
    predict := fun t => some { lon := (t : Rat), lat := 2 * (t : Rat), alt := 0 } }

/-! ## Pass-time segmentation (src/utils.rs, `calculate_pass_times`)

Time is in integer seconds; `TIME_STEP = Duration::minutes(1)` is 60.  The
per-sample elevation test `el >= 0.0` (computed from `object.predict` and
`az_el`) is abstracted into the boolean `visible` function of the sample
time. -/

/-- The `while time <= end_time` loop of `calculate_pass_times`, phrased by
the number of remaining samples (the loop runs once per grid point
`start + 60*k ≤ end`): on an invisible→visible sample a pass opens at the
sample time; on a visible→invisible sample the segment
`(start, time - TIME_STEP)` is pushed. -/
def passLoop (visible : Int → Bool) :
    Nat → Int → Option Int → List (Int × Int) → List (Int × Int) × Option Int
  | 0, _, currentPassStart, segments => (segments, currentPassStart)
  | n + 1, time, currentPassStart, segments =>
    match currentPassStart, visible time with
    | none, true => passLoop visible n (time + 60) (some time) segments
    | some start, false =>
      passLoop visible n (time + 60) none (segments ++ [(start, time - 60)])
    | _, _ => passLoop visible n (time + 60) currentPassStart segments

/-- Number of iterations of the `while time <= end_time` loop: the grid
points `startTime + 60*k` with `k = 0, …, (endTime - startTime) / 60`. -/
def sampleCount (startTime endTime : Int) : Nat :=
  if startTime ≤ endTime then ((endTime - startTime) / 60).toNat + 1 else 0

/-- `calculate_pass_times`: run the scan loop, then close a still-open pass
at `end_time` itself. -/
def calculatePassTimes (visible : Int → Bool) (startTime endTime : Int) :
    List (Int × Int) :=
  let scanned := passLoop visible (sampleCount startTime endTime) startTime none []
  match scanned.2 with
  | some start => scanned.1 ++ [(start, endTime)]
  | none => scanned.1

/-- Well-formedness of one emitted pass segment relative to the sample-grid
anchor `s` and an upper time bound: it starts no earlier than `s`, is
ordered, ends by `bound`, and both endpoints lie on the 60-second grid
anchored at `s`. -/
def SegWF (s bound : Int) (p : Int × Int) : Prop :=
  s ≤ p.1 ∧ p.1 ≤ p.2 ∧ p.2 ≤ bound ∧ 60 ∣ (p.1 - s) ∧ 60 ∣ (p.2 - s)

/-- A one-entry pipeline state whose entry is selected and whose channel is
empty (used to evaluate poll lemmas on a concrete input). -/
def selectedIdleState : PipelineState :=
  toggleSelect (initState 1) 0

/-! ## Real-valued geometry (src/coordinates/lla.rs, src/utils.rs)

The source computes in f64; this embedding idealizes the arithmetic over
the reals.  The NaN sentinel of `az_el` is modelled as `none`. -/

noncomputable section

/-- f64::to_radians: `x * (PI / 180)`. -/
def toRadians (x : ℝ) : ℝ := x * (π / 180)

/-- f64::to_degrees: `x * (180 / PI)`. -/
def toDegrees (x : ℝ) : ℝ := x * (180 / π)

/-- f64::rem_euclid for a positive modulus: the representative of `x` mod
`y` in `[0, y)`. -/
def remEuclidR (x y : ℝ) : ℝ := x - y * ⌊x / y⌋

/-- f64::atan2 branch semantics over the reals. -/
def atan2 (y x : ℝ) : ℝ :=
  if 0 < x then arctan (y / x)
  else if x < 0 then (if 0 ≤ y then arctan (y / x) + π else arctan (y / x) - π)
  else if 0 < y then π / 2
  else if y < 0 then -(π / 2)
  else 0

/-- A geodetic position (degrees, degrees, km). -/
structure Lla where
  lat : ℝ
  lon : ℝ
  alt : ℝ

/-- An Earth-fixed position (km). -/
@[ext]
structure Ecef where
  x : ℝ
  y : ℝ
  z : ℝ

/-- WGS84 semi-major axis (km). -/
def wgs84A : ℝ := 6378.137

/-- WGS84 flattening. -/
def wgs84F : ℝ := 1 / 298.257223563

/-- WGS84 semi-minor axis (km). -/
def wgs84B : ℝ := wgs84A * (1 - wgs84F)

/-- Square of the WGS84 first eccentricity. -/
def wgs84E2 : ℝ := 1 - (wgs84B * wgs84B) / (wgs84A * wgs84A)

/-- `lla_to_ecef` (src/coordinates/lla.rs). -/
def llaToEcef (lla : Lla) : Ecef :=
  let lat := toRadians lla.lat
  let lon := toRadians lla.lon
  let alt := lla.alt
  let sinLat := sin lat
  let cosLat := cos lat
  let cosLon := cos lon
  let sinLon := sin lon
  let n := wgs84A / Real.sqrt (1 - wgs84E2 * sinLat ^ 2)
  { x := (n + alt) * cosLat * cosLon
    y := (n + alt) * cosLat * sinLon
    z := (n * (1 - wgs84E2) + alt) * sinLat }

/-- East component of the observer-frame ENU delta vector in `az_el`. -/
def azElEast (target observer : Lla) : ℝ :=
  -sin (toRadians observer.lon) * ((llaToEcef target).x - (llaToEcef observer).x) +
    cos (toRadians observer.lon) * ((llaToEcef target).y - (llaToEcef observer).y)

/-- North component of the observer-frame ENU delta vector in `az_el`. -/
def azElNorth (target observer : Lla) : ℝ :=
  -sin (toRadians observer.lat) * cos (toRadians observer.lon) *
      ((llaToEcef target).x - (llaToEcef observer).x) -
    sin (toRadians observer.lat) * sin (toRadians observer.lon) *
      ((llaToEcef target).y - (llaToEcef observer).y) +
    cos (toRadians observer.lat) * ((llaToEcef target).z - (llaToEcef observer).z)

/-- Up component of the observer-frame ENU delta vector in `az_el`. -/
def azElUp (target observer : Lla) : ℝ :=
  cos (toRadians observer.lat) * cos (toRadians observer.lon) *
      ((llaToEcef target).x - (llaToEcef observer).x) +
    cos (toRadians observer.lat) * sin (toRadians observer.lon) *
      ((llaToEcef target).y - (llaToEcef observer).y) +
    sin (toRadians observer.lat) * ((llaToEcef target).z - (llaToEcef observer).z)

/-- `Lla::az_el` (src/coordinates/lla.rs): azimuth in `[0, 360)` degrees and
elevation in degrees, or the NaN sentinel (`none`) when the horizontal
distance and the up component are both exactly zero. -/
def azEl (target observer : Lla) : Option (ℝ × ℝ) :=
  let east := azElEast target observer
  let north := azElNorth target observer
  let up := azElUp target observer
  let azDeg := remEuclidR (toDegrees (atan2 east north)) 360
  let horizontalDist := Real.sqrt (east ^ 2 + north ^ 2)
  let elDeg := toDegrees (atan2 up horizontalDist)
  if horizontalDist = 0 ∧ up = 0 then none else some (azDeg, elDeg)

/-- `wrap_longitude_rad` (src/utils.rs): `(lon + PI).rem_euclid(TAU) - PI`. -/
def wrapLongitudeRad (lon : ℝ) : ℝ := remEuclidR (lon + π) (2 * π) - π

/-- `gmst_from_jd_tt` (src/utils.rs), on the TT Julian-day value. -/
def gmstFromJdTt (jd : ℝ) : ℝ :=
  let t := (jd - 2451545) / 36525
  let gmstDeg := 280.46061837 + 360.98564736629 * (jd - 2451545) +
    0.000387933 * t ^ 2 + (-1 / 38710000) * t ^ 3
  toRadians (remEuclidR gmstDeg 360)

/-- The mean solar longitude in radians exactly as `subsolar_point` computes
it: `(280.46 + 0.9856474 * n).rem_euclid(360).to_radians()`. -/
def meanSolarLongitudeRad (jd : ℝ) : ℝ :=
  toRadians (remEuclidR (280.46 + 0.9856474 * (jd - 2451545)) 360)

/-- `subsolar_point` (src/utils.rs), on the TT Julian-day value the source
derives from the UTC timestamp: returns (longitude, declination) in
radians. -/
def subsolarPoint (jd : ℝ) : ℝ × ℝ :=
  let n := jd - 2451545
  let meanLong := toRadians (remEuclidR (280.46 + 0.9856474 * n) 360)
  let meanAnom := toRadians (357.528 + 0.9856003 * n)
  let eclipLong := meanLong + toRadians 1.915 * sin meanAnom +
    toRadians 0.02 * sin (2 * meanAnom)
  let obliq := toRadians 23.439
  let decl := arcsin (sin obliq * sin eclipLong)
  (wrapLongitudeRad (meanLong - gmstFromJdTt jd), decl)

end

/-! ## Theorems -/

/-- Claim C1 (counterexample): the invariant "at most one in-flight fetch
task per entry" fails on a reachable state.  Selecting entry 0 spawns task
0; a periodic refresh that fires while task 0 is still in flight calls
`reload_selected_entries`, whose `load_entry` spawns task 1 for the same
entry without cancelling task 0 — the state reached has two in-flight fetch
tasks for entry 0. -/
theorem c1_counterexample :
    Reachable refreshRaceState ∧ inFlightCount refreshRaceState 0 = 2 :=
  ⟨Reachable.update true (Reachable.toggle 0 (Reachable.init 1)), by decide⟩

/-- Claim C1 (amended): `load_entry` never cancels an existing fetch task
for the entry — it overwrites the abort handle with the new task's and
leaves any previous task in flight, so each call increases the entry's
in-flight task count by one; in particular the periodic-refresh path starts
a second task for an entry whose previous task is still in flight.  Only
explicit deselection (`cancel_entry_loading`) aborts a task. -/
theorem c1_load_entry_cancels_nothing (s : PipelineState) (index : Nat)
    (h : index < s.listEntries.length) :
    inFlightCount (loadEntry s index) index = inFlightCount s index + 1 ∧
    ((loadEntry s index).listEntries.getD index defaultEntry).abortHandle =
      some s.nextTaskId := by
  refine ⟨?_, ?_⟩
  · simp [inFlightCount, loadEntry, List.filter_append]
  · simp [loadEntry, List.getD_eq_getElem?_getD,
      List.getElem?_set_eq_of_lt _ h]

/-- Witness for C1's amended theorem at a concrete state. -/
theorem c1_load_entry_cancels_nothing_witness :
    0 < (initState 1).listEntries.length ∧
    inFlightCount (loadEntry (initState 1) 0) 0 = inFlightCount (initState 1) 0 + 1 :=
  ⟨by decide, (c1_load_entry_cancels_nothing (initState 1) 0 (by decide)).1⟩

/-- Claim C2 (counterexample): a fetch result that is delivered after its
entry has been deselected is not discarded.  Entry 0 is selected (task 0
spawned), task 0 finishes and sends a successful result with element 5, the
user deselects entry 0 (the abort hits the already-finished task and is a
no-op), and the next `poll_entry_updates` still appends element 5 to the
object roster even though the entry is unselected. -/
theorem c2_counterexample :
    Reachable lateResultState ∧ lateResultState.objects = [5] ∧
    (lateResultState.listEntries.getD 0 defaultEntry).selected = false :=
  ⟨Reachable.update false
      (Reachable.toggle 0 (Reachable.complete 0 (some [5]) (Reachable.toggle 0 (Reachable.init 1)))),
    by decide, by decide⟩

/-- `pollStep` appends exactly the elements carried by the result. -/
theorem pollStep_objects (acc : PipelineState) (result : UpdateResult) :
    (pollStep acc result).objects = acc.objects ++ result.elements.getD [] := by
  cases h : result.elements <;> simp [pollStep, h]

/-- Draining the channel appends every delivered element list in order. -/
theorem pollFold_objects (ms : List UpdateResult) :
    ∀ acc : PipelineState,
      (ms.foldl pollStep acc).objects =
        acc.objects ++ (ms.map (fun r => r.elements.getD [])).flatten := by
  induction ms with
  | nil => intro acc; simp
  | cons m ms ih =>
    intro acc
    simp [List.foldl_cons, ih, pollStep_objects]

/-- `pollStep` never raises an entry's `selected` flag. -/
theorem pollStep_selected (acc : PipelineState) (result : UpdateResult) (index : Nat)
    (h : ((pollStep acc result).listEntries.getD index defaultEntry).selected = true) :
    (acc.listEntries.getD index defaultEntry).selected = true := by
  rcases eq_or_ne result.index index with rfl | hne
  · by_cases hlt : result.index < acc.listEntries.length
    · cases helems : result.elements
      · simp [pollStep, helems, List.getD_eq_getElem?_getD,
          List.getElem?_set_eq_of_lt _ hlt] at h
      · simpa [pollStep, helems, List.getD_eq_getElem?_getD,
          List.getElem?_set_eq_of_lt _ hlt, List.getElem?_eq_getElem hlt] using h
    · cases helems : result.elements <;>
        simpa [pollStep, helems, List.set_eq_of_length_le (Nat.le_of_not_lt hlt)] using h
  · cases helems : result.elements <;>
      simpa [pollStep, helems, List.getD_eq_getElem?_getD,
        List.getElem?_set_ne hne] using h

/-- Draining the channel never raises any entry's `selected` flag. -/
theorem pollFold_selected (ms : List UpdateResult) :
    ∀ (acc : PipelineState) (index : Nat),
      ((ms.foldl pollStep acc).listEntries.getD index defaultEntry).selected = true →
      (acc.listEntries.getD index defaultEntry).selected = true := by
  induction ms with
  | nil => intro acc index h; simpa using h
  | cons m ms ih =>
    intro acc index h
    exact pollStep_selected acc m index (ih (pollStep acc m) index h)

/-- Claim C2 (amended): a late fetch result for a deselected entry is not
discarded — `poll_entry_updates` unconditionally appends the delivered
elements of every queued result to the object roster.  The entry however
never transitions to `Selected` by result delivery: polling can only lower
an entry's `selected` flag (a failed result forces it unselected, a
successful one leaves it unchanged). -/
theorem c2_poll_applies_late_results (s : PipelineState) :
    (pollEntryUpdates s).objects =
      s.objects ++ (s.channel.map (fun r => r.elements.getD [])).flatten ∧
    ∀ index : Nat,
      ((pollEntryUpdates s).listEntries.getD index defaultEntry).selected = true →
      (s.listEntries.getD index defaultEntry).selected = true := by
  refine ⟨?_, ?_⟩
  · simpa using pollFold_objects s.channel { s with channel := [] }
  · intro index h
    exact pollFold_selected s.channel { s with channel := [] } index h

/-- Witness for C2's amended theorem at a concrete state. -/
theorem c2_poll_applies_late_results_witness :
    ((pollEntryUpdates selectedIdleState).listEntries.getD 0 defaultEntry).selected = true ∧
    (selectedIdleState.listEntries.getD 0 defaultEntry).selected = true :=
  ⟨by decide, (c2_poll_applies_late_results selectedIdleState).2 0 (by decide)⟩

/-- Claim C3 (counterexample): constructing an object from an element set
that the external propagation capability rejects does abort the process:
`Object::from_elements` calls `Constants::from_elements(..).unwrap()`, so a
decayed/degenerate element set panics instead of producing a recoverable
`InvalidElements` error. -/
theorem c3_counterexample :
    fromElements invalidOracle decayedElements = RunResult.panicked := by
  decide

/-- Claim C3 (amended): `Object::from_elements` panics (aborting the
process) exactly when the external constants derivation fails on the element
set; when the derivation succeeds, construction succeeds.  The failure is
not surfaced as a recoverable per-object error. -/
theorem c3_from_elements_panics_iff
    (constantsFromElements : Elements → Except SgpError SgpConstants)
    (elements : Elements) :
    fromElements constantsFromElements elements = RunResult.panicked ↔
      ∃ err : SgpError, constantsFromElements elements = Except.error err := by
  unfold fromElements
  cases h : constantsFromElements elements <;> simp

/-- Claim C6: with an existing cache record, `get_elements` treats the
record as valid (returns the cached content with no network fetch) whenever
its modification-time age is less than the configured lifetime, and as
expired (attempting a network re-fetch) whenever its age exceeds the
lifetime.  In particular a record written at time T with lifetime L is valid
at T+L−1s and expired at T+L+1s. -/
theorem c6_cache_staleness (cache : CacheView) (lifetimeSecs : Nat)
    (fetchResult : Option (List Nat)) (hex : cache.cacheExists = true) :
    (cache.ageSecs < lifetimeSecs →
      getElements cache lifetimeSecs fetchResult = (some cache.content, 0)) ∧
    (lifetimeSecs < cache.ageSecs →
      (getElements cache lifetimeSecs fetchResult).2 = 1) := by
  refine ⟨fun hlt => ?_, fun hgt => ?_⟩
  · simp [getElements, hex, Nat.not_lt_of_lt hlt]
  · cases fetchResult <;> simp [getElements, hex, hgt]

/-- Witness for C6 at concrete ages L−1 = 9 and L+1 = 11 with L = 10. -/
theorem c6_cache_staleness_witness :
    (9 < 10 ∧
      getElements { cacheExists := true, ageSecs := 9, content := [1, 2] } 10 none =
        (some [1, 2], 0)) ∧
    (10 < 11 ∧
      (getElements { cacheExists := true, ageSecs := 11, content := [1, 2] } 10 none).2 = 1) :=
  ⟨⟨by decide,
      (c6_cache_staleness { cacheExists := true, ageSecs := 9, content := [1, 2] } 10 none
        rfl).1 (by decide)⟩,
    ⟨by decide,
      (c6_cache_staleness { cacheExists := true, ageSecs := 11, content := [1, 2] } 10 none
        rfl).2 (by decide)⟩⟩

/-- `mapUnwrap` on a list where every element succeeds returns all values. -/
theorem mapUnwrap_all_some {α β : Type} [Inhabited β] (f : α → Option β) :
    ∀ xs : List α, (∀ x ∈ xs, (f x).isSome) →
      mapUnwrap f xs = RunResult.ok (xs.map (fun x => (f x).getD default)) := by
  intro xs
  induction xs with
  | nil => intro _; rfl
  | cons x xs ih =>
    intro h
    obtain ⟨b, hb⟩ := Option.isSome_iff_exists.mp (h x (by simp))
    have hrest := ih (fun y hy => h y (by simp [hy]))
    simp [mapUnwrap, hb, hrest]

/-- Claim C10: for an object whose orbital period is `P` whole minutes
(`P ≥ 2`) and a query time at which every propagation succeeds,
`calculate_ground_track` returns exactly `P − 1` points, the `j`-th point
(0-based) being the (longitude, latitude) of the object's predicted state at
`time + (1 + j)` minutes — so the sampled offsets are `1, …, P − 1`: the
query time itself (offset 0) and the full-period instant (offset `P`) are
not sampled. -/
theorem c10_ground_track_points (object : TrackedObject) (time : Int)
    (hP : 2 ≤ object.periodMinutes)
    (hTotal : ∀ t : Int, (object.predict t).isSome) :
    ∃ pts : List (Rat × Rat),
      calculateGroundTrack object time = RunResult.ok pts ∧
      (pts.length : Int) = object.periodMinutes - 1 ∧
      ∀ j : Nat, ∀ hj : j < pts.length,
        ∃ st : ObjState,
          object.predict (time + (1 + (j : Int))) = some st ∧
          pts.get ⟨j, hj⟩ = (st.lon, st.lat) := by
  have hall :
      ∀ k ∈ List.range' 1 (object.periodMinutes - 1).toNat,
        ((object.predict (time + (k : Int))).map (fun st => (st.lon, st.lat))).isSome := by
    intro k _
    simpa using hTotal (time + (k : Int))
  refine ⟨_, mapUnwrap_all_some _ _ hall, ?_, ?_⟩
  · rw [List.length_map, List.length_range']
    omega
  · intro j hj
    rw [List.length_map, List.length_range'] at hj
    obtain ⟨st, hst⟩ :=
      Option.isSome_iff_exists.mp (hTotal (time + (1 + (j : Int))))
    refine ⟨st, hst, ?_⟩
    have hcast : (((1 + j : Nat) : Int)) = 1 + (j : Int) := by push_cast; ring
    simp [List.get_eq_getElem, List.getElem_map, List.getElem_range'_1, hcast, hst]

/-- One-step equation of the scan loop: invisible → visible opens a pass. -/
theorem passLoop_none_true (visible : Int → Bool) (n : Nat) (time : Int)
    (acc : List (Int × Int)) (h : visible time = true) :
    passLoop visible (n + 1) time none acc =
      passLoop visible n (time + 60) (some time) acc := by
  simp [passLoop, h]

/-- One-step equation of the scan loop: invisible sample with no open pass. -/
theorem passLoop_none_false (visible : Int → Bool) (n : Nat) (time : Int)
    (acc : List (Int × Int)) (h : visible time = false) :
    passLoop visible (n + 1) time none acc =
      passLoop visible n (time + 60) none acc := by
  simp [passLoop, h]

/-- One-step equation of the scan loop: visible → invisible closes the open
pass at the previous sample. -/
theorem passLoop_some_false (visible : Int → Bool) (n : Nat) (time st : Int)
    (acc : List (Int × Int)) (h : visible time = false) :
    passLoop visible (n + 1) time (some st) acc =
      passLoop visible n (time + 60) none (acc ++ [(st, time - 60)]) := by
  simp [passLoop, h]

/-- One-step equation of the scan loop: visible sample inside an open pass. -/
theorem passLoop_some_true (visible : Int → Bool) (n : Nat) (time st : Int)
    (acc : List (Int × Int)) (h : visible time = true) :
    passLoop visible (n + 1) time (some st) acc =
      passLoop visible n (time + 60) (some st) acc := by
  simp [passLoop, h]

/-- After at least one iteration, a pass is open at loop exit exactly when
the last processed sample was visible. -/
theorem passLoop_final_isSome (visible : Int → Bool) :
    ∀ (n : Nat) (time : Int) (cur : Option Int) (acc : List (Int × Int)),
      (passLoop visible (n + 1) time cur acc).2.isSome = visible (time + 60 * (n : Int)) := by
  intro n
  induction n with
  | zero =>
    intro time cur acc
    rcases cur with _ | st <;> cases hv : visible time <;> simp [passLoop, hv]
  | succ n ih =>
    intro time cur acc
    have harg : time + 60 + 60 * (n : Int) = time + 60 * ((n : Nat) + 1 : Int) := by
      ring
    rcases cur with _ | st <;> cases hv : visible time
    · rw [passLoop_none_false visible (n + 1) time acc hv, ih, harg]; norm_cast
    · rw [passLoop_none_true visible (n + 1) time acc hv, ih, harg]; norm_cast
    · rw [passLoop_some_false visible (n + 1) time st acc hv, ih, harg]; norm_cast
    · rw [passLoop_some_true visible (n + 1) time st acc hv, ih, harg]; norm_cast

/-- The scan loop commutes with time translation. -/
theorem passLoop_shift (visible : Int → Bool) (c : Int) :
    ∀ (n : Nat) (time : Int) (cur : Option Int) (acc : List (Int × Int)),
      passLoop (fun x => visible (x - c)) n (time + c) (cur.map (· + c))
          (acc.map (fun p => (p.1 + c, p.2 + c))) =
        ((passLoop visible n time cur acc).1.map (fun p => (p.1 + c, p.2 + c)),
          (passLoop visible n time cur acc).2.map (· + c)) := by
  intro n
  induction n with
  | zero => intro time cur acc; rfl
  | succ n ih =>
    intro time cur acc
    have hv' : ∀ b : Bool, visible time = b → (fun x => visible (x - c)) (time + c) = b := by
      intro b hb; simpa using hb
    have ht : time + c + 60 = time + 60 + c := by ring
    have ht2 : time + c - 60 = time - 60 + c := by ring
    rcases cur with _ | st <;> cases hv : visible time
    · rw [Option.map_none', passLoop_none_false _ n (time + c) _ (hv' false hv),
        passLoop_none_false visible n time acc hv, ht]
      simpa using ih (time + 60) none acc
    · rw [Option.map_none', passLoop_none_true _ n (time + c) _ (hv' true hv),
        passLoop_none_true visible n time acc hv, ht]
      simpa using ih (time + 60) (some time) acc
    · rw [Option.map_some', passLoop_some_false _ n (time + c) _ _ (hv' false hv),
        passLoop_some_false visible n time st acc hv, ht, ht2]
      simpa [List.map_append] using ih (time + 60) none (acc ++ [(st, time - 60)])
    · rw [Option.map_some', passLoop_some_true _ n (time + c) _ _ (hv' true hv),
        passLoop_some_true visible n time st acc hv, ht]
      simpa using ih (time + 60) (some st) acc

/-- `calculate_pass_times` commutes with time translation. -/
theorem calculatePassTimes_shift (visible : Int → Bool) (c startTime endTime : Int) :
    calculatePassTimes (fun x => visible (x - c)) (startTime + c) (endTime + c) =
      (calculatePassTimes visible startTime endTime).map (fun p => (p.1 + c, p.2 + c)) := by
  have hcount : sampleCount (startTime + c) (endTime + c) = sampleCount startTime endTime := by
    unfold sampleCount
    have h2 : endTime + c - (startTime + c) = endTime - startTime := by ring
    by_cases hse : startTime ≤ endTime
    · rw [if_pos (by omega), if_pos hse, h2]
    · rw [if_neg (by omega), if_neg hse]
  unfold calculatePassTimes
  rw [hcount]
  have hs := passLoop_shift visible c (sampleCount startTime endTime) startTime none []
  simp only [Option.map_none', List.map_nil] at hs
  rw [hs]
  rcases hsc : (passLoop visible (sampleCount startTime endTime) startTime none []).2
    with _ | st
  · simp [hsc]
  · simp [hsc, List.map_append]

/-- Claim C4: pass-time segmentation scans `[start_time, end_time]` at
1-minute resolution tracking visibility, and (first conjunct) for an
elevation function that is non-negative exactly between minute 10 and
minute 20 of a 60-minute window it returns exactly the one segment
`[t0+10min, t0+20min]`; (second conjunct) a pass still open at the last
sample of the window is closed at the window's exact `end_time` (the
segment list ends with a segment whose end is `end_time` itself). -/
theorem c4_pass_time_segmentation :
    (∀ t0 : Int,
      calculatePassTimes (fun t => decide (t0 + 600 ≤ t ∧ t ≤ t0 + 1200)) t0 (t0 + 3600) =
        [(t0 + 600, t0 + 1200)]) ∧
    (∀ (visible : Int → Bool) (startTime endTime : Int),
      startTime ≤ endTime →
      visible (startTime + 60 * ((endTime - startTime) / 60)) = true →
      (calculatePassTimes visible startTime endTime).getLast?.map (fun p => p.2) =
        some endTime) := by
  constructor
  · intro t0
    have base :
        calculatePassTimes (fun t => decide (600 ≤ t ∧ t ≤ 1200)) 0 3600 = [(600, 1200)] := by
      decide
    have hfun :
        (fun x => (fun t => decide (600 ≤ t ∧ t ≤ 1200)) (x - t0)) =
          (fun t : Int => decide (t0 + 600 ≤ t ∧ t ≤ t0 + 1200)) := by
      funext x
      apply decide_eq_decide.mpr
      omega
    have hshift :=
      calculatePassTimes_shift (fun t => decide (600 ≤ t ∧ t ≤ 1200)) t0 0 3600
    rw [hfun, base] at hshift
    simpa [show (0 : Int) + t0 = t0 from by ring,
      show (3600 : Int) + t0 = t0 + 3600 from by ring,
      show (600 : Int) + t0 = t0 + 600 from by ring,
      show (1200 : Int) + t0 = t0 + 1200 from by ring] using hshift
  · intro visible startTime endTime hse hvis
    have hn : sampleCount startTime endTime = ((endTime - startTime) / 60).toNat + 1 := by
      simp [sampleCount, hse]
    have hlast :=
      passLoop_final_isSome visible (((endTime - startTime) / 60).toNat) startTime none []
    have hcast : (60 : Int) * ((((endTime - startTime) / 60).toNat : Nat) : Int) =
        60 * ((endTime - startTime) / 60) := by
      have h0 : (0 : Int) ≤ (endTime - startTime) / 60 :=
        Int.ediv_nonneg (by omega) (by norm_num)
      omega
    rw [hcast, hvis] at hlast
    obtain ⟨st, hst⟩ := Option.isSome_iff_exists.mp hlast
    unfold calculatePassTimes
    rw [hn]
    simp only [hst]
    simp [List.getLast?_concat]

/-- Witness for C4's second conjunct: an everywhere-visible object in the
window `[0, 60]` yields a final segment closed at 60. -/
theorem c4_pass_time_segmentation_witness :
    (0 : Int) ≤ 60 ∧
    (calculatePassTimes (fun _ => true) 0 60).getLast?.map (fun p => p.2) = some 60 :=
  ⟨by decide, c4_pass_time_segmentation.2 (fun _ => true) 0 60 (by decide) rfl⟩

/-- `SegWF` is monotone in the bound. -/
theorem segWF_mono {s b b' : Int} {p : Int × Int} (hb : b ≤ b') (h : SegWF s b p) :
    SegWF s b' p := by
  obtain ⟨h1, h2, h3, h4, h5⟩ := h
  exact ⟨h1, h2, le_trans h3 hb, h4, h5⟩

/-- Invariant of the scan loop: started at a grid point at least `s` with a
well-formed accumulator and open-pass start, it yields a chronologically
ordered, disjoint segment list whose segments are grid-aligned and bounded,
and an open-pass start (if any) that is grid-aligned, bounded and after
every emitted segment. -/
theorem passLoop_invariant (visible : Int → Bool) (s : Int) :
    ∀ (n : Nat) (time : Int) (cur : Option Int) (acc : List (Int × Int)) (bound : Int),
      time + 60 * (n : Int) - 60 ≤ bound →
      s ≤ time → 60 ∣ (time - s) →
      acc.Pairwise (fun p q => p.2 < q.1) →
      (∀ p ∈ acc, SegWF s (time - 60) p) →
      (∀ st, cur = some st →
        s ≤ st ∧ st ≤ time - 60 ∧ 60 ∣ (st - s) ∧ ∀ p ∈ acc, p.2 < st) →
      ((passLoop visible n time cur acc).1.Pairwise (fun p q => p.2 < q.1) ∧
        (∀ p ∈ (passLoop visible n time cur acc).1, SegWF s bound p) ∧
        (∀ st, (passLoop visible n time cur acc).2 = some st →
          s ≤ st ∧ st ≤ bound ∧ 60 ∣ (st - s) ∧
          ∀ p ∈ (passLoop visible n time cur acc).1, p.2 < st)) := by
  intro n
  induction n with
  | zero =>
    intro time cur acc bound hbound hts hdvd hpw hacc hcur
    simp only [passLoop]
    refine ⟨hpw, ?_, ?_⟩
    · intro p hp
      exact segWF_mono (by omega) (hacc p hp)
    · intro st hst
      obtain ⟨h1, h2, h3, h4⟩ := hcur st hst
      exact ⟨h1, by omega, h3, h4⟩
  | succ n ih =>
    intro time cur acc bound hbound hts hdvd hpw hacc hcur
    have hbound' : time + 60 + 60 * (n : Int) - 60 ≤ bound := by push_cast at hbound; omega
    have hts' : s ≤ time + 60 := by omega
    have hdvd' : (60 : Int) ∣ (time + 60 - s) := by omega
    rcases cur with _ | st
    · cases hv : visible time
      · rw [passLoop_none_false visible n time acc hv]
        exact ih (time + 60) none acc bound hbound' hts' hdvd' hpw
          (fun p hp => segWF_mono (by omega) (hacc p hp))
          (fun st hst => by simp at hst)
      · rw [passLoop_none_true visible n time acc hv]
        refine ih (time + 60) (some time) acc bound hbound' hts' hdvd' hpw
          (fun p hp => segWF_mono (by omega) (hacc p hp)) ?_
        intro st hst
        obtain rfl : st = time := by simpa using hst.symm
        refine ⟨hts, by omega, hdvd, ?_⟩
        intro p hp
        have := (hacc p hp).2.2.1
        omega
    · cases hv : visible time
      · rw [passLoop_some_false visible n time st acc hv]
        obtain ⟨hst1, hst2, hst3, hst4⟩ := hcur st rfl
        refine ih (time + 60) none (acc ++ [(st, time - 60)]) bound hbound' hts' hdvd' ?_ ?_
          (fun st' hst' => by simp at hst')
        · rw [List.pairwise_append]
          refine ⟨hpw, List.pairwise_singleton _ _, ?_⟩
          intro p hp q hq
          obtain rfl : q = (st, time - 60) := by simpa using hq
          exact hst4 p hp
        · intro p hp
          rw [List.mem_append] at hp
          rcases hp with hp | hp
          · exact segWF_mono (by omega) (hacc p hp)
          · obtain rfl : p = (st, time - 60) := by simpa using hp
            refine ⟨hst1, hst2, by omega, hst3, ?_⟩
            omega
      · rw [passLoop_some_true visible n time st acc hv]
        obtain ⟨hst1, hst2, hst3, hst4⟩ := hcur st rfl
        refine ih (time + 60) (some st) acc bound hbound' hts' hdvd' hpw
          (fun p hp => segWF_mono (by omega) (hacc p hp)) ?_
        intro st' hst'
        obtain rfl : st' = st := by simpa using hst'.symm
        exact ⟨hst1, by omega, hst3, hst4⟩

/-- Claim C9 (counterexample): on the window `[0, 90]` seconds (one and a
half minutes) with everywhere-non-negative elevation, the single returned
segment is `(0, 90)`: its end, the window's `end_time`, does not lie on the
1-minute sample grid anchored at `start_time`. -/
theorem c9_counterexample :
    calculatePassTimes (fun _ => true) 0 90 = [(0, 90)] ∧ ¬ (60 : Int) ∣ (90 - 0) :=
  ⟨by decide, by omega⟩

/-- Claim C9 (amended): for every visibility function and window with
`start_time ≤ end_time`, the segment list of `calculate_pass_times` is
chronologically ordered and pairwise disjoint, every segment satisfies
`start ≤ end`, every endpoint lies within `[start_time, end_time]`, every
segment start lies on the 1-minute sample grid anchored at `start_time`,
and every segment end either lies on that grid or is the window's
`end_time` itself (the still-open final segment is closed at `end_time`,
which is on the grid only when the window length is a whole number of
minutes). -/
theorem c9_pass_segments_invariants (visible : Int → Bool) (startTime endTime : Int)
    (h : startTime ≤ endTime) :
    (calculatePassTimes visible startTime endTime).Pairwise (fun p q => p.2 < q.1) ∧
    ∀ p ∈ calculatePassTimes visible startTime endTime,
      startTime ≤ p.1 ∧ p.1 ≤ p.2 ∧ p.2 ≤ endTime ∧
      60 ∣ (p.1 - startTime) ∧ (60 ∣ (p.2 - startTime) ∨ p.2 = endTime) := by
  have hn : sampleCount startTime endTime = ((endTime - startTime) / 60).toNat + 1 := by
    simp [sampleCount, h]
  have hbound :
      startTime + 60 * ((sampleCount startTime endTime : Nat) : Int) - 60 ≤ endTime := by
    rw [hn]
    have h0 : (0 : Int) ≤ (endTime - startTime) / 60 :=
      Int.ediv_nonneg (by omega) (by norm_num)
    have h1 : 60 * ((endTime - startTime) / 60) ≤ endTime - startTime := by omega
    push_cast
    omega
  have hinv := passLoop_invariant visible startTime (sampleCount startTime endTime)
    startTime none [] endTime hbound le_rfl (by omega) List.Pairwise.nil
    (fun p hp => by simp at hp) (fun st hst => by simp at hst)
  obtain ⟨hinv1, hinv2, hinv3⟩ := hinv
  unfold calculatePassTimes
  rcases hsc : (passLoop visible (sampleCount startTime endTime) startTime none []).2
    with _ | st
  · simp only [hsc]
    refine ⟨hinv1, ?_⟩
    intro p hp
    obtain ⟨h1, h2, h3, h4, h5⟩ := hinv2 p hp
    exact ⟨h1, h2, h3, h4, Or.inl h5⟩
  · simp only [hsc]
    obtain ⟨hs1, hs2, hs3, hs4⟩ := hinv3 st hsc
    constructor
    · rw [List.pairwise_append]
      refine ⟨hinv1, List.pairwise_singleton _ _, ?_⟩
      intro p hp q hq
      obtain rfl : q = (st, endTime) := by simpa using hq
      exact hs4 p hp
    · intro p hp
      rw [List.mem_append] at hp
      rcases hp with hp | hp
      · obtain ⟨h1, h2, h3, h4, h5⟩ := hinv2 p hp
        exact ⟨h1, h2, h3, h4, Or.inl h5⟩
      · obtain rfl : p = (st, endTime) := by simpa using hp
        exact ⟨hs1, hs2, le_rfl, hs3, Or.inr rfl⟩

/-- Witness for C9's amended theorem on a concrete one-minute window. -/
theorem c9_pass_segments_invariants_witness :
    (0 : Int) ≤ 60 ∧
    ∀ p ∈ calculatePassTimes (fun _ => true) 0 60,
      (0 : Int) ≤ p.1 ∧ p.1 ≤ p.2 ∧ p.2 ≤ 60 ∧
      60 ∣ (p.1 - 0) ∧ (60 ∣ (p.2 - 0) ∨ p.2 = 60) :=
  ⟨by decide, (c9_pass_segments_invariants (fun _ => true) 0 60 (by decide)).2⟩

/-- Witness for C10 on a concrete 3-minute-period object. -/
theorem c10_ground_track_points_witness :
    2 ≤ sampleObject.periodMinutes ∧
    ∃ pts : List (Rat × Rat),
      calculateGroundTrack sampleObject 0 = RunResult.ok pts ∧
      (pts.length : Int) = sampleObject.periodMinutes - 1 ∧
      ∀ j : Nat, ∀ hj : j < pts.length,
        ∃ st : ObjState,
          sampleObject.predict (0 + (1 + (j : Int))) = some st ∧
          pts.get ⟨j, hj⟩ = (st.lon, st.lat) :=
  ⟨by decide, c10_ground_track_points sampleObject 0 (by decide) (fun _ => rfl)⟩

/-- The ENU rotation at any observer is injective: a delta vector whose
east, north and up components all vanish is the zero vector. -/
theorem enu_rotation_injective (sl cl slat clat dx dy dz : ℝ)
    (py1 : sl ^ 2 + cl ^ 2 = 1) (py2 : slat ^ 2 + clat ^ 2 = 1)
    (he : -sl * dx + cl * dy = 0)
    (hn : -slat * cl * dx - slat * sl * dy + clat * dz = 0)
    (hu : clat * cl * dx + clat * sl * dy + slat * dz = 0) :
    dx = 0 ∧ dy = 0 ∧ dz = 0 := by
  have h4 : cl * dx + sl * dy = 0 := by
    linear_combination clat * hu - slat * hn - (cl * dx + sl * dy) * py2
  refine ⟨?_, ?_, ?_⟩
  · linear_combination cl * h4 - sl * he - dx * py1
  · linear_combination sl * h4 + cl * he - dy * py1
  · linear_combination slat * hu + clat * hn - dz * py2

/-- The ENU components of the observer→target delta all vanish exactly when
the two Earth-fixed positions coincide. -/
theorem azEl_enu_zero_iff (target observer : Lla) :
    (azElEast target observer = 0 ∧ azElNorth target observer = 0 ∧
      azElUp target observer = 0) ↔ llaToEcef target = llaToEcef observer := by
  constructor
  · rintro ⟨he, hn, hu⟩
    have h :=
      enu_rotation_injective (Real.sin (toRadians observer.lon))
        (Real.cos (toRadians observer.lon)) (Real.sin (toRadians observer.lat))
        (Real.cos (toRadians observer.lat))
        ((llaToEcef target).x - (llaToEcef observer).x)
        ((llaToEcef target).y - (llaToEcef observer).y)
        ((llaToEcef target).z - (llaToEcef observer).z)
        (Real.sin_sq_add_cos_sq _) (Real.sin_sq_add_cos_sq _)
        (by simpa [azElEast] using he) (by simpa [azElNorth] using hn)
        (by simpa [azElUp] using hu)
    obtain ⟨h1, h2, h3⟩ := h
    ext
    · linarith [h1]
    · linarith [h2]
    · linarith [h3]
  · intro heq
    have hx : (llaToEcef target).x = (llaToEcef observer).x := by rw [heq]
    have hy : (llaToEcef target).y = (llaToEcef observer).y := by rw [heq]
    have hz : (llaToEcef target).z = (llaToEcef observer).z := by rw [heq]
    refine ⟨?_, ?_, ?_⟩ <;> simp [azElEast, azElNorth, azElUp, hx, hy, hz]

/-- `az_el` returns the sentinel exactly on Earth-fixed coincidence. -/
theorem azEl_eq_none_iff (target observer : Lla) :
    azEl target observer = none ↔ llaToEcef target = llaToEcef observer := by
  rw [← azEl_enu_zero_iff]
  unfold azEl
  by_cases hc :
      Real.sqrt (azElEast target observer ^ 2 + azElNorth target observer ^ 2) = 0 ∧
        azElUp target observer = 0
  · rw [if_pos hc]
    have hsum : azElEast target observer ^ 2 + azElNorth target observer ^ 2 = 0 := by
      have := Real.sqrt_eq_zero'.mp hc.1
      nlinarith [sq_nonneg (azElEast target observer), sq_nonneg (azElNorth target observer)]
    have he : azElEast target observer = 0 := by
      nlinarith [sq_nonneg (azElEast target observer), sq_nonneg (azElNorth target observer)]
    have hn : azElNorth target observer = 0 := by
      nlinarith [sq_nonneg (azElEast target observer), sq_nonneg (azElNorth target observer)]
    simp [he, hn, hc.2]
  · rw [if_neg hc]
    constructor
    · intro h
      simp at h
    · rintro ⟨he, hn, hu⟩
      exact absurd ⟨by rw [he, hn]; simp, hu⟩ hc

/-- A target directly overhead the observer gets elevation exactly 90°. -/
theorem azEl_overhead (observer target : Lla)
    (hlat : target.lat = observer.lat) (hlon : target.lon = observer.lon)
    (halt : observer.alt < target.alt) :
    ∃ az : ℝ, azEl target observer = some (az, 90) := by
  have py1 := Real.sin_sq_add_cos_sq (toRadians observer.lon)
  have py2 := Real.sin_sq_add_cos_sq (toRadians observer.lat)
  have he : azElEast target observer = 0 := by
    simp only [azElEast, llaToEcef, hlat, hlon]
    ring
  have hn : azElNorth target observer = 0 := by
    simp only [azElNorth, llaToEcef, hlat, hlon]
    linear_combination (-(target.alt - observer.alt) * Real.sin (toRadians observer.lat) *
      Real.cos (toRadians observer.lat)) * py1
  have hu : azElUp target observer = target.alt - observer.alt := by
    simp only [azElUp, llaToEcef, hlat, hlon]
    linear_combination ((target.alt - observer.alt) *
      Real.cos (toRadians observer.lat) ^ 2) * py1 + (target.alt - observer.alt) * py2
  have hpos : (0 : ℝ) < target.alt - observer.alt := by linarith
  have hsqrt : Real.sqrt (azElEast target observer ^ 2 + azElNorth target observer ^ 2) = 0 := by
    rw [he, hn]
    simp
  have hcond : ¬(Real.sqrt (azElEast target observer ^ 2 + azElNorth target observer ^ 2) = 0 ∧
      azElUp target observer = 0) := by
    rintro ⟨-, h0⟩
    rw [hu] at h0
    linarith
  refine ⟨remEuclidR (toDegrees (atan2 (azElEast target observer) (azElNorth target observer)))
    360, ?_⟩
  unfold azEl
  rw [if_neg hcond]
  have hatan : atan2 (azElUp target observer) (Real.sqrt (azElEast target observer ^ 2 +
      azElNorth target observer ^ 2)) = π / 2 := by
    rw [hsqrt, hu]
    unfold atan2
    rw [if_neg (lt_irrefl 0), if_neg (lt_irrefl 0), if_pos hpos]
  rw [hatan]
  have h90 : toDegrees (π / 2) = 90 := by
    unfold toDegrees
    field_simp
    ring
  rw [h90]

/-- Claim C7: `az_el` never panics — in this embedding it is a total
function whose only degenerate outcome is the NaN sentinel `none`; it
returns that sentinel exactly when the target's and the observer's
Earth-fixed positions coincide (zero horizontal and zero vertical
separation), and for a target directly overhead the observer (same
latitude/longitude, strictly higher altitude) it returns a defined azimuth
with elevation exactly 90°; in particular the sentinel occurs only at zero
horizontal separation. -/
theorem c7_az_el_sentinel_and_overhead :
    (∀ target observer : Lla,
      azEl target observer = none ↔ llaToEcef target = llaToEcef observer) ∧
    (∀ observer target : Lla,
      target.lat = observer.lat → target.lon = observer.lon →
      observer.alt < target.alt →
      ∃ az : ℝ, azEl target observer = some (az, 90)) :=
  ⟨azEl_eq_none_iff, azEl_overhead⟩

/-- Witness for C7's overhead conjunct at a concrete observer and target. -/
theorem c7_az_el_sentinel_and_overhead_witness :
    (0 : ℝ) < 1 ∧
    ∃ az : ℝ,
      azEl { lat := 0, lon := 0, alt := 1 } { lat := 0, lon := 0, alt := 0 } =
        some (az, 90) :=
  ⟨one_pos,
    c7_az_el_sentinel_and_overhead.2 { lat := 0, lon := 0, alt := 0 }
      { lat := 0, lon := 0, alt := 1 } rfl rfl one_pos⟩

/-- `rem_euclid` with a positive modulus lands in `[0, y)`. -/
theorem remEuclidR_mem (x y : ℝ) (hy : 0 < y) : remEuclidR x y ∈ Set.Ico 0 y := by
  unfold remEuclidR
  have h1 : (⌊x / y⌋ : ℝ) ≤ x / y := Int.floor_le _
  have h2 : x / y < ⌊x / y⌋ + 1 := Int.lt_floor_add_one _
  have h3 : y * (x / y) = x := mul_div_cancel₀ x (ne_of_gt hy)
  constructor
  · have h4 : y * (⌊x / y⌋ : ℝ) ≤ y * (x / y) := mul_le_mul_of_nonneg_left h1 (le_of_lt hy)
    linarith
  · have h5 : y * (x / y) < y * ((⌊x / y⌋ : ℝ) + 1) := mul_lt_mul_of_pos_left h2 hy
    have h6 : y * ((⌊x / y⌋ : ℝ) + 1) = y * (⌊x / y⌋ : ℝ) + y := by ring
    linarith

/-- `wrap_longitude_rad` lands in `[-π, π)`. -/
theorem wrapLongitudeRad_mem (x : ℝ) : wrapLongitudeRad x ∈ Set.Ico (-π) π := by
  have h := remEuclidR_mem (x + π) (2 * π) (by positivity)
  rw [Set.mem_Ico] at h ⊢
  unfold wrapLongitudeRad
  obtain ⟨h1, h2⟩ := h
  constructor <;> linarith

/-- Claim C8 (counterexample): the wrap applied to the subsolar longitude
does not map into `(-π, π]`: at input `π` the wrap
`(lon + π).rem_euclid(2π) - π` returns exactly `-π`, which lies outside
`(-π, π]` — contrary to the claim, the wrap result can be exactly `-π` and
never exactly `π`. -/
theorem c8_counterexample :
    wrapLongitudeRad π = -π ∧ wrapLongitudeRad π ∉ Set.Ioc (-π) π := by
  have h2pi : (2 : ℝ) * π ≠ 0 := by positivity
  have hval : wrapLongitudeRad π = -π := by
    unfold wrapLongitudeRad remEuclidR
    rw [show π + π = 2 * π from by ring, div_self h2pi]
    push_cast [Int.floor_one]
    ring
  refine ⟨hval, ?_⟩
  rw [hval]
  simp [Set.mem_Ioc]

/-- Claim C8 (amended): for every query instant (its TT Julian-day value),
the subsolar-point computation returns a subsolar longitude equal to the
mean solar longitude minus GMST wrapped into the half-open interval
`[-π, π)` — so the wrap result can be exactly `-π` but never exactly `π`. -/
theorem c8_subsolar_longitude_wrap :
    (∀ jd : ℝ, (subsolarPoint jd).1 =
      wrapLongitudeRad (meanSolarLongitudeRad jd - gmstFromJdTt jd)) ∧
    (∀ x : ℝ, wrapLongitudeRad x ∈ Set.Ico (-π) π) :=
  ⟨fun _ => rfl, wrapLongitudeRad_mem⟩

end Tracker
